import Mathlib

/-!
Verification of the `EvaluationLoop` controller from
`src/pytorch_lightning/loops/evaluation_loop.py`.

The Python class is embedded shallowly: its instance attributes become the
fields of `LoopState`, its methods become Lean functions on that state, and
Python exceptions become explicit `PyErr` values.  The external collaborators
reached through `self.trainer` (run mode flag, rank / world size, the model
adapter's step functions, the step-end hooks) are gathered into a `Trainer`
record of opaque functions; calls whose return value the loop ignores
(logger, profiler, debug tracker, lifecycle hooks) are recorded as `Event`s
in a per-call trace so that ordering claims can be stated.

Parts of the repository that the claims depend on but that are not under
`src/` (the base `Loop.run` driver, `PredictionCollection`, and
`Trainer._track_output_for_epoch_end`) are modelled from the spec; each such
definition carries a doc comment starting with "Modelled from the spec:".
-/

namespace EvalLoop

/-- Python exceptions that the embedded code can raise: `StopIteration`
(source exhaustion / null batch), `TypeError` (comparing or iterating
`None`), and the configuration error named by the spec's error taxonomy
(never actually raised by this code; present so that statements can compare
against it). -/
inductive PyErr where
  | stopIteration
  | typeError
  | configurationError
deriving DecidableEq

/-- A step output (`STEP_OUTPUT`): either a `Result` dict, which may carry a
`predictions` entry next to its remaining payload, or some other non-`Result`
value.  `Result.pop` only ever touches the `predictions` entry, so the dict
is embedded as that one optional entry plus an opaque rest. -/
inductive Output (α : Type) where
  | result (preds : Option α) (rest : α)
  | other (v : α)
deriving DecidableEq

/-- Modelled from the spec: `PredictionCollection`
(`pytorch_lightning.trainer.supporters`, not under `src/`) is an ordered
sequence of captured prediction values tagged with this process's rank and
world size at creation. -/
structure PredictionCollection (α : Type) where
  rank : Nat
  world_size : Nat
  items : List α
deriving DecidableEq

/-- Modelled from the spec: `PredictionCollection.add` appends a captured
prediction value to the ordered collection; a null extraction captures
nothing. -/
def pcAdd (pc : PredictionCollection α) (p : Option α) : PredictionCollection α :=
  match p with
  | none => pc
  | some v => { pc with items := pc.items ++ [v] }

/-- The `enumerate(dataloader)` iterator: the remaining raw items (a raw item
is `none` for a Python `None` batch) paired with the index the next pull
will carry.  `on_run_start` creates it with `next_idx = 0`. -/
structure Cursor (α : Type) where
  items : List (Option α)
  next_idx : Nat
deriving DecidableEq

/-- The mutable attributes of an `EvaluationLoop` instance
(`__init__`, lines 12-20, plus `iteration_count` owned by the base `Loop`). -/
structure LoopState (α : Type) where
  iteration_count : Nat
  predictions : Option (PredictionCollection α)
  dataloader : Option (Cursor α)
  dl_max_batches : Option Nat
  dataloader_idx : Option Nat
  num_dataloaders : Option Nat
  batch_idx : Option Nat
  outputs : List (Output α)
deriving DecidableEq

/-- Keys of the ordered `step_kwargs` mapping built by `_build_kwargs`. -/
inductive KwKey where
  | batch
  | batch_idx
  | dataloader_idx
deriving DecidableEq

/-- Values of the ordered `step_kwargs` mapping: the opaque batch payload or
an integer index. -/
inductive KwVal (α : Type) where
  | b (x : α)
  | n (i : Nat)
deriving DecidableEq

/-- The collaborators the loop reaches through `self.trainer`: the run-mode
flag `testing`, the distributed tags, the accelerator's two step functions
and the two step-end hooks (`call_hook('test_step_end', ...)` /
`call_hook('validation_step_end', ...)`), each an opaque host function. -/
structure Trainer (α : Type) where
  testing : Bool
  global_rank : Nat
  world_size : Nat
  validation_step : List (KwKey × KwVal α) → Option (Output α)
  test_step : List (KwKey × KwVal α) → Option (Output α)
  validation_step_end : Option (Output α) → Option (Output α)
  test_step_end : Option (Output α) → Option (Output α)

/-- Host calls made during one `advance`, in program order.  The five calls
named by the hook-order claim are `hookBatchStart`, `stepCall`, `stepEnd`,
`hookBatchEnd` and `storePred`; the others are the logger / debugger side
calls the code also performs. -/
inductive Event where
  | metricsBatchStart
  | hookBatchStart (testing : Bool)
  | resetResults
  | stepCall (testing : Bool)
  | cacheMetrics
  | stepEnd (testing : Bool)
  | hookBatchEnd (testing : Bool)
  | storePred
  | debugTrack
  | logStepMetrics
  | trackOutput
deriving DecidableEq

/-- The state of a freshly constructed `EvaluationLoop` (`__init__`,
lines 12-20): every optional attribute unset, `outputs` empty;
`iteration_count = 0` comes from the base `Loop.__init__` (modelled from the
spec, which requires `iterationCount ≥ 0` starting at zero). -/
def initState : LoopState α :=
  { iteration_count := 0
    predictions := none
    dataloader := none
    dl_max_batches := none
    dataloader_idx := none
    num_dataloaders := none
    batch_idx := none
    outputs := [] }

/-- `EvaluationLoop.done` (lines 25-27):
`self.batch_idx is not None and self.batch_idx >= self.dl_max_batches`.
The `and` short-circuits, so an unset `batch_idx` gives `False`; a set
`batch_idx` with an unset `dl_max_batches` compares an `int` against `None`,
which raises `TypeError`. -/
def done (s : LoopState α) : Except PyErr Bool :=
  match s.batch_idx with
  | none => .ok false
  | some bi =>
    match s.dl_max_batches with
    | none => .error .typeError
    | some mb => .ok (decide (mb ≤ bi))

/-- `EvaluationLoop.reset` (lines 29-35): zeroes `iteration_count`, creates a
fresh `PredictionCollection` tagged with the trainer's rank and world size,
unsets `dl_max_batches`, `dataloader_idx`, `num_dataloaders` and empties
`outputs`.  It does not touch `batch_idx` or `dataloader`. -/
def reset (tr : Trainer α) (s : LoopState α) : LoopState α :=
  { s with
    iteration_count := 0
    predictions := some { rank := tr.global_rank, world_size := tr.world_size, items := [] }
    dl_max_batches := none
    dataloader_idx := none
    num_dataloaders := none
    outputs := [] }

/-- `EvaluationLoop.on_run_start` (lines 37-41): stores the run arguments and
wraps the raw source in `enumerate(dataloader)`, whose indices start at 0. -/
def on_run_start (s : LoopState α) (dataloader : List (Option α))
    (dl_max_batches dataloader_idx num_dataloaders : Nat) : LoopState α :=
  { s with
    dl_max_batches := some dl_max_batches
    dataloader_idx := some dataloader_idx
    num_dataloaders := some num_dataloaders
    dataloader := some { items := dataloader, next_idx := 0 } }

/-- `EvaluationLoop._build_kwargs` (lines 134-146): an ordered mapping with
`batch` and `batch_idx`, plus `dataloader_idx` appended when
`multiple_test_loaders or multiple_val_loaders` holds.  When
`self.num_dataloaders` is unset, the comparison `None > 1` raises
`TypeError` (whichever of the two conjunctions evaluates it first). -/
def _build_kwargs (testing : Bool) (num_dataloaders : Option Nat) (batch : α)
    (batch_idx dataloader_idx : Nat) : Except PyErr (List (KwKey × KwVal α)) :=
  match num_dataloaders with
  | none => .error .typeError
  | some nd =>
    let step_kwargs : List (KwKey × KwVal α) :=
      [(.batch, .b batch), (.batch_idx, .n batch_idx)]
    let multiple_val_loaders := !testing && decide (1 < nd)
    let multiple_test_loaders := testing && decide (1 < nd)
    if multiple_test_loaders || multiple_val_loaders then
      .ok (step_kwargs ++ [(.dataloader_idx, .n dataloader_idx)])
    else
      .ok step_kwargs

/-- `EvaluationLoop.evaluation_step` (lines 70-92): builds the kwargs, resets
the adapter's per-step result holder, and dispatches to
`accelerator.test_step` or `accelerator.validation_step` on `trainer.testing`.
The metrics-cache call and `track_batch_size` have no effect on loop state. -/
def evaluation_step (tr : Trainer α) (s : LoopState α) (batch : α)
    (batch_idx dataloader_idx : Nat) : Except PyErr (Option (Output α)) :=
  match _build_kwargs tr.testing s.num_dataloaders batch batch_idx dataloader_idx with
  | .error e => .error e
  | .ok step_kwargs =>
    .ok (if tr.testing then tr.test_step step_kwargs else tr.validation_step step_kwargs)

/-- `EvaluationLoop.evaluation_step_end` (lines 94-99): forwards the output
through the mode-specific step-end hook, which may replace it. -/
def evaluation_step_end (tr : Trainer α) (output : Option (Output α)) : Option (Output α) :=
  if tr.testing then tr.test_step_end output else tr.validation_step_end output

/-- `EvaluationLoop.store_predictions` (lines 125-132): when the output is
non-null, the collection exists, the output is a `Result` and the run is in
test mode, `output.pop('predictions', None)` removes the `predictions` entry
(returning `None` when absent) and hands it to `PredictionCollection.add`.
Returns the (possibly popped) output together with the updated state; the
trailing debug-tracker call is an event only. -/
def store_predictions (tr : Trainer α) (s : LoopState α) (output : Option (Output α)) :
    Option (Output α) × LoopState α :=
  match output, s.predictions with
  | some (.result p r), some pc =>
    if tr.testing then
      (some (.result none r), { s with predictions := some (pcAdd pc p) })
    else
      (some (.result p r), s)
  | o, _ => (o, s)

/-- Modelled from the spec: `Trainer._track_output_for_epoch_end` (not under
`src/`) is the OutputAggregator's default policy — append the per-batch
output to the ordered epoch-level sequence when it is non-null. -/
def _track_output_for_epoch_end (outputs : List (Output α)) (output : Option (Output α)) :
    List (Output α) :=
  match output with
  | none => outputs
  | some o => outputs ++ [o]

/-- Result of one `advance` call: the state after the call, the trace of
host calls it performed, and the exception it raised, if any. -/
structure AdvResult (α : Type) where
  state : LoopState α
  trace : List Event
  err : Option PyErr
deriving DecidableEq

/-- Body of `advance` after a non-null batch has been pulled and `batch_idx`
recorded (lines 49-65): `on_evaluation_batch_start` (logger call, then the
mode-specific batch-start hook), `evaluation_step` (kwargs, result-holder
reset, step call, metrics cache), `evaluation_step_end`,
`on_evaluation_batch_end` (mode-specific batch-end hook, then
`store_predictions` with its debug call), the step-metrics logger call, and
finally the output aggregation. -/
def advanceBatch (tr : Trainer α) (dataloader_idx : Nat) (s1 : LoopState α)
    (batch : α) (i : Nat) : AdvResult α :=
  let ev0 : List Event := [.metricsBatchStart, .hookBatchStart tr.testing]
  match evaluation_step tr s1 batch i dataloader_idx with
  | .error e => { state := s1, trace := ev0, err := some e }
  | .ok out0 =>
    let out1 := evaluation_step_end tr out0
    let popped := store_predictions tr s1 out1
    let s3 := { popped.2 with
                outputs := _track_output_for_epoch_end popped.2.outputs popped.1 }
    { state := s3
      trace := ev0 ++ [.resetResults, .stepCall tr.testing, .cacheMetrics,
                       .stepEnd tr.testing, .hookBatchEnd tr.testing, .storePred,
                       .debugTrack, .logStepMetrics, .trackOutput]
      err := none }

/-- `EvaluationLoop.advance` (lines 43-65): `next(self.dataloader)` raises
`TypeError` when the cursor is unset and `StopIteration` when it is
exhausted; otherwise the pulled index is written to `self.batch_idx` and the
item is consumed, a `None` batch raises `StopIteration` with no further
effect, and a real batch runs the per-batch sequence of `advanceBatch`.
Only the `dataloader_idx` run argument is read; the others shadow state the
loop reads from `self`. -/
def advance (tr : Trainer α) (dataloader_idx : Nat) (s : LoopState α) : AdvResult α :=
  match s.dataloader with
  | none => { state := s, trace := [], err := some .typeError }
  | some c =>
    match c.items with
    | [] => { state := s, trace := [], err := some .stopIteration }
    | b :: rest =>
      let i := c.next_idx
      let s1 := { s with batch_idx := some i, dataloader := some ⟨rest, i + 1⟩ }
      match b with
      | none => { state := s1, trace := [], err := some .stopIteration }
      | some batch => advanceBatch tr dataloader_idx s1 batch i

/-- `EvaluationLoop.on_run_end` (lines 67-68): returns the aggregated
outputs. -/
def on_run_end (s : LoopState α) : List (Output α) := s.outputs

/-- How a run ended: normally (done, or exhaustion converted to the normal
stop), with a propagated exception, or with the step budget of the driver
model exhausted (never reached with adequate fuel). -/
inductive RunExit where
  | finished
  | failed (e : PyErr)
  | fuelOut
deriving DecidableEq

/-- Modelled from the spec: the base `Loop.run` driver's iteration (not under
`src/`) — while `done()` is false, call `advance` and then increment
`iteration_count`; a `StopIteration` escaping `advance` is caught and ends
the run normally; any other exception (including one raised by `done`
itself) propagates to the caller.  `fuel` bounds the recursion and is chosen
large enough by `run` that it is never exhausted. -/
def runSteps (tr : Trainer α) (dataloader_idx : Nat) :
    Nat → LoopState α → LoopState α × RunExit
  | 0, s => (s, .fuelOut)
  | fuel + 1, s =>
    match done s with
    | .error e => (s, .failed e)
    | .ok true => (s, .finished)
    | .ok false =>
      let r := advance tr dataloader_idx s
      match r.err with
      | some .stopIteration => (r.state, .finished)
      | some e => (r.state, .failed e)
      | none =>
        runSteps tr dataloader_idx fuel
          { r.state with iteration_count := r.state.iteration_count + 1 }

/-- Modelled from the spec: the base `Loop.run` entry point (not under
`src/`) — `reset()`, `on_run_start(*args)`, the iteration of `runSteps`,
then `on_run_end()` hands the aggregated outputs to the host.  One unit of
fuel is consumed per loop iteration and each iteration that recurses
consumes one cursor item, so `length + 1` fuel is never exhausted. -/
def run (tr : Trainer α) (s : LoopState α) (dataloader : List (Option α))
    (dl_max_batches dataloader_idx num_dataloaders : Nat) : LoopState α × RunExit :=
  let s1 := on_run_start (reset tr s) dataloader dl_max_batches dataloader_idx num_dataloaders
  runSteps tr dataloader_idx (dataloader.length + 1) s1

/-- The kwargs `_build_kwargs` produces when `num_dataloaders` is set; they
do not depend on the mode. -/
def kwFor (nd : Nat) (batch : α) (batch_idx dataloader_idx : Nat) :
    List (KwKey × KwVal α) :=
  [(.batch, .b batch), (.batch_idx, .n batch_idx)] ++
    (if 1 < nd then [(.dataloader_idx, .n dataloader_idx)] else [])

/-- The output of one batch as produced by the step call followed by the
step-end hook, before prediction extraction. -/
def rawOut (tr : Trainer α) (nd dataloader_idx : Nat) (batch : α) (i : Nat) :
    Option (Output α) :=
  evaluation_step_end tr
    (if tr.testing then tr.test_step (kwFor nd batch i dataloader_idx)
     else tr.validation_step (kwFor nd batch i dataloader_idx))

/-- The output of one batch after `store_predictions` has (in test mode)
popped the `predictions` entry of a `Result`. -/
def poppedOut (tr : Trainer α) (nd dataloader_idx : Nat) (batch : α) (i : Nat) :
    Option (Output α) :=
  match rawOut tr nd dataloader_idx batch i with
  | some (.result p r) => if tr.testing then some (.result none r) else some (.result p r)
  | o => o

/-- The prediction value one batch contributes to the collection: the
`predictions` entry of a `Result` output, in test mode only. -/
def predOf (tr : Trainer α) (nd dataloader_idx : Nat) (batch : α) (i : Nat) : Option α :=
  match rawOut tr nd dataloader_idx batch i with
  | some (.result p _) => if tr.testing then p else none
  | _ => none

/-- The epoch-level outputs contributed by a list of batches starting at a
given index: per-batch popped outputs, in batch order, nulls skipped. -/
def outsFrom (tr : Trainer α) (nd dataloader_idx : Nat) : List α → Nat → List (Output α)
  | [], _ => []
  | b :: bs, j =>
    (poppedOut tr nd dataloader_idx b j).toList ++ outsFrom tr nd dataloader_idx bs (j + 1)

/-- The prediction values contributed by a list of batches starting at a
given index, in batch order. -/
def predsFrom (tr : Trainer α) (nd dataloader_idx : Nat) : List α → Nat → List α
  | [], _ => []
  | b :: bs, j =>
    (predOf tr nd dataloader_idx b j).toList ++ predsFrom tr nd dataloader_idx bs (j + 1)

/-- The five per-batch calls named by the hook-order property. -/
def isMainHook : Event → Bool
  | .hookBatchStart _ => true
  | .stepCall _ => true
  | .stepEnd _ => true
  | .hookBatchEnd _ => true
  | .storePred => true
  | _ => false

/-- The trace of every successful `advance`. -/
def fullTrace (testing : Bool) : List Event :=
  [.metricsBatchStart, .hookBatchStart testing, .resetResults, .stepCall testing,
   .cacheMetrics, .stepEnd testing, .hookBatchEnd testing, .storePred,
   .debugTrack, .logStepMetrics, .trackOutput]

/-- States reachable by any interleaving of the loop's public operations
from a freshly constructed instance. -/
inductive Reachable : LoopState α → Prop where
  | init : Reachable initState
  | do_reset (tr : Trainer α) {s : LoopState α} : Reachable s → Reachable (reset tr s)
  | do_run_start {s : LoopState α} (L : List (Option α)) (mb di nd : Nat) :
      Reachable s → Reachable (on_run_start s L mb di nd)
  | do_advance (tr : Trainer α) (di : Nat) {s : LoopState α} :
      Reachable s → Reachable (advance tr di s).state

/-- A concrete test-mode trainer: the step echoes a `Result` carrying
prediction value 5 and payload 9. -/
def trT : Trainer Nat :=
  { testing := true
    global_rank := 0
    world_size := 1
    validation_step := fun _ => some (.other 1)
    test_step := fun _ => some (.result (some 5) 9)
    validation_step_end := id
    test_step_end := id }

/-- A concrete validation-mode trainer whose step also returns a `Result`
carrying a prediction value. -/
def trV : Trainer Nat :=
  { testing := false
    global_rank := 0
    world_size := 1
    validation_step := fun _ => some (.result (some 5) 9)
    test_step := fun _ => some (.other 1)
    validation_step_end := id
    test_step_end := id }

/-- A loop prepared for a run with `dl_max_batches = 0` over a one-batch
source. -/
def sMax0 : LoopState Nat := on_run_start (reset trT initState) [some 7] 0 0 1

/-- A loop prepared for a run with `dl_max_batches = 5` over a two-batch
source. -/
def sReady : LoopState Nat := on_run_start (reset trT initState) [some 7, some 8] 5 0 1

theorem build_kwargs_some (t : Bool) (nd : Nat) (b : α) (i d : Nat) :
    _build_kwargs t (some nd) b i d = .ok (kwFor nd b i d) := by
  cases t <;> simp [_build_kwargs, kwFor] <;> split <;> simp

theorem track_eq (outs : List (Output α)) (o : Option (Output α)) :
    _track_output_for_epoch_end outs o = outs ++ o.toList := by
  cases o <;> simp [_track_output_for_epoch_end]

theorem pcAdd_eq (pc : PredictionCollection α) (p : Option α) :
    pcAdd pc p = { pc with items := pc.items ++ p.toList } := by
  cases p <;> simp [pcAdd]

theorem rawOut_def (tr : Trainer α) (nd d : Nat) (b : α) (i : Nat) :
    evaluation_step_end tr
      (if tr.testing then tr.test_step (kwFor nd b i d)
       else tr.validation_step (kwFor nd b i d)) = rawOut tr nd d b i := rfl

theorem done_of_none {s : LoopState α} (h : s.batch_idx = none) : done s = .ok false := by
  simp [done, h]

theorem done_of_lt {s : LoopState α} {p mb : Nat} (hb : s.batch_idx = some p)
    (hm : s.dl_max_batches = some mb) (h : p < mb) : done s = .ok false := by
  simp [done, hb, hm]
  omega

theorem done_of_ge {s : LoopState α} {p mb : Nat} (hb : s.batch_idx = some p)
    (hm : s.dl_max_batches = some mb) (h : mb ≤ p) : done s = .ok true := by
  simp [done, hb, hm, h]

theorem advance_success (tr : Trainer α) (dlidx : Nat) (s : LoopState α)
    (b : α) (rest : List (Option α)) (j nd : Nat) (pc : PredictionCollection α)
    (hdl : s.dataloader = some ⟨some b :: rest, j⟩)
    (hnd : s.num_dataloaders = some nd)
    (hpc : s.predictions = some pc) :
    advance tr dlidx s =
      { state := { s with
          batch_idx := some j
          dataloader := some ⟨rest, j + 1⟩
          predictions := some (pcAdd pc (predOf tr nd dlidx b j))
          outputs := s.outputs ++ (poppedOut tr nd dlidx b j).toList }
        trace := fullTrace tr.testing
        err := none } := by
  obtain ⟨ic, pr, dl, mbf, dif, ndf, bix, outs⟩ := s
  simp only at hdl hnd hpc
  subst hdl hnd hpc
  simp only [advance, advanceBatch, evaluation_step, build_kwargs_some, rawOut_def,
    fullTrace]
  rcases hout : rawOut tr nd dlidx b j with _ | o
  · simp [store_predictions, predOf, poppedOut, hout, pcAdd, track_eq]
  · cases o with
    | result p r =>
      cases htest : tr.testing <;>
        simp [store_predictions, predOf, poppedOut, hout, htest, pcAdd_eq, track_eq]
    | other v =>
      simp [store_predictions, predOf, poppedOut, hout, pcAdd, track_eq]

theorem advance_no_cursor (tr : Trainer α) (dlidx : Nat) (s : LoopState α)
    (hdl : s.dataloader = none) :
    advance tr dlidx s = { state := s, trace := [], err := some .typeError } := by
  simp [advance, hdl]

theorem advance_exhausted (tr : Trainer α) (dlidx : Nat) (s : LoopState α) (j : Nat)
    (hdl : s.dataloader = some ⟨[], j⟩) :
    advance tr dlidx s = { state := s, trace := [], err := some .stopIteration } := by
  simp [advance, hdl]

theorem advance_null_batch (tr : Trainer α) (dlidx : Nat) (s : LoopState α)
    (rest : List (Option α)) (j : Nat)
    (hdl : s.dataloader = some ⟨none :: rest, j⟩) :
    advance tr dlidx s =
      { state := { s with batch_idx := some j, dataloader := some ⟨rest, j + 1⟩ }
        trace := []
        err := some .stopIteration } := by
  simp [advance, hdl]

theorem runSteps_char (tr : Trainer α) (dlidx : Nat) :
    ∀ (L : List α) (fuel j mb nd : Nat) (pc : PredictionCollection α) (s : LoopState α),
    s.dataloader = some ⟨L.map some, j⟩ →
    s.dl_max_batches = some mb →
    s.num_dataloaders = some nd →
    s.predictions = some pc →
    (s.batch_idx = none ∨ ∃ p, s.batch_idx = some p ∧ p < mb) →
    j ≤ mb →
    L.length < fuel →
    runSteps tr dlidx fuel s =
      ({ s with
          iteration_count := s.iteration_count + min L.length (mb + 1 - j)
          predictions := some { pc with
            items := pc.items ++ predsFrom tr nd dlidx (L.take (mb + 1 - j)) j }
          dataloader := some ⟨(L.drop (min L.length (mb + 1 - j))).map some,
                              j + min L.length (mb + 1 - j)⟩
          batch_idx := if min L.length (mb + 1 - j) = 0 then s.batch_idx
                       else some (j + min L.length (mb + 1 - j) - 1)
          outputs := s.outputs ++ outsFrom tr nd dlidx (L.take (mb + 1 - j)) j },
       .finished) := by
  intro L
  induction L with
  | nil =>
    intro fuel j mb nd pc s hdl hmb hnd hpc hbi hj hfuel
    obtain ⟨fuel, rfl⟩ : ∃ f, fuel = f + 1 := ⟨fuel - 1, by omega⟩
    have hdone : done s = .ok false := by
      rcases hbi with h | ⟨p, hp, hplt⟩
      · exact done_of_none h
      · exact done_of_lt hp hmb hplt
    rw [runSteps, hdone, advance_exhausted tr dlidx s j (by simpa using hdl)]
    obtain ⟨ic, pr, dl, mbf, dif, ndf, bix, outs⟩ := s
    simp only at hdl hmb hnd hpc
    subst hdl hmb hnd hpc
    simp [predsFrom, outsFrom]
  | cons b bs ih =>
    intro fuel j mb nd pc s hdl hmb hnd hpc hbi hj hfuel
    simp only [List.length_cons] at hfuel
    obtain ⟨fuel, rfl⟩ : ∃ f, fuel = f + 1 := ⟨fuel - 1, by omega⟩
    have hdone : done s = .ok false := by
      rcases hbi with h | ⟨p, hp, hplt⟩
      · exact done_of_none h
      · exact done_of_lt hp hmb hplt
    have hadv := advance_success tr dlidx s b (bs.map some) j nd pc
      (by simpa using hdl) hnd hpc
    rw [runSteps, hdone, hadv]
    simp only
    set s2 : LoopState α :=
      { s with
        batch_idx := some j
        dataloader := some ⟨bs.map some, j + 1⟩
        predictions := some (pcAdd pc (predOf tr nd dlidx b j))
        outputs := s.outputs ++ (poppedOut tr nd dlidx b j).toList
        iteration_count := s.iteration_count + 1 } with hs2
    rcases Nat.lt_or_ge j mb with hjlt | hjge
    · -- the loop continues: apply the induction hypothesis at index j + 1
      have hrec := ih fuel (j + 1) mb nd (pcAdd pc (predOf tr nd dlidx b j)) s2
        (by simp [hs2]) (by simp [hs2, hmb]) (by simp [hs2, hnd]) (by simp [hs2])
        (Or.inr ⟨j, by simp [hs2], hjlt⟩) (by omega) (by omega)
      rw [hrec]
      clear hrec ih hadv hdone hbi hfuel
      have hsub : mb + 1 - j = (mb - j) + 1 := by omega
      have hsub2 : mb + 1 - (j + 1) = mb - j := by omega
      simp only [hs2, hsub, hsub2, List.length_cons, Nat.succ_min_succ,
        List.take_succ_cons, List.drop_succ_cons, predsFrom, outsFrom, pcAdd_eq,
        List.append_assoc]
      rcases Nat.eq_zero_or_pos (bs.length ⊓ (mb - j)) with h0 | h0
      · simp [h0, Prod.mk.injEq, LoopState.mk.injEq, PredictionCollection.mk.injEq,
          Cursor.mk.injEq]
      · simp only [h0.ne', if_false, Prod.mk.injEq, LoopState.mk.injEq,
          PredictionCollection.mk.injEq, Cursor.mk.injEq, Option.some.injEq,
          and_true, true_and]
        refine ⟨by omega, by omega, ?_⟩
        simp only [Nat.succ_ne_zero, if_false, Option.some.injEq]
        omega
    · -- j = mb: the batch just processed makes done true
      have hjeq : j = mb := by omega
      subst hjeq
      have hdone2 : done s2 = .ok true :=
        done_of_ge (s := s2) (by simp [hs2]) (by simp [hs2, hmb]) (le_refl j)
      obtain ⟨f2, rfl⟩ : ∃ f2, fuel = f2 + 1 := ⟨fuel - 1, by omega⟩
      rw [runSteps, hdone2]
      clear ih hadv hdone hbi hfuel
      have hsub : j + 1 - j = 0 + 1 := by omega
      simp only [hs2, hsub, List.length_cons, Nat.succ_min_succ,
        List.take_succ_cons, List.drop_succ_cons, List.take_zero, List.drop_zero,
        predsFrom, outsFrom, pcAdd_eq, List.append_assoc]
      simp [Prod.mk.injEq, LoopState.mk.injEq, PredictionCollection.mk.injEq,
        Cursor.mk.injEq]

theorem store_predictions_proj (tr : Trainer α) (s : LoopState α) (o : Option (Output α)) :
    (store_predictions tr s o).2.dataloader = s.dataloader ∧
    (store_predictions tr s o).2.batch_idx = s.batch_idx := by
  rcases o with _ | o
  · simp [store_predictions]
  · cases o with
    | result p r =>
      rcases hp : s.predictions with _ | pc
      · simp [store_predictions, hp]
      · cases htest : tr.testing <;> simp [store_predictions, hp, htest]
    | other v => simp [store_predictions]

theorem advanceBatch_proj (tr : Trainer α) (di : Nat) (s : LoopState α) (b : α) (i : Nat) :
    (advanceBatch tr di s b i).state.dataloader = s.dataloader ∧
    (advanceBatch tr di s b i).state.batch_idx = s.batch_idx := by
  unfold advanceBatch
  rcases hstep : evaluation_step tr s b i di with e | out0
  · simp
  · simpa using store_predictions_proj tr s (evaluation_step_end tr out0)

theorem advance_err_none_shape (tr : Trainer α) (di : Nat) (s : LoopState α)
    (herr : (advance tr di s).err = none) :
    ∃ c rest batch, s.dataloader = some c ∧ c.items = some batch :: rest ∧
      advance tr di s =
        advanceBatch tr di
          { s with batch_idx := some c.next_idx, dataloader := some ⟨rest, c.next_idx + 1⟩ }
          batch c.next_idx := by
  rcases hdl : s.dataloader with _ | c
  · rw [advance_no_cursor tr di s hdl] at herr
    simp at herr
  · rcases c with ⟨items, j⟩
    rcases items with _ | ⟨b, rest⟩
    · rw [advance_exhausted tr di s j hdl] at herr
      simp at herr
    · rcases b with _ | batch
      · rw [advance_null_batch tr di s rest j hdl] at herr
        simp at herr
      · exact ⟨⟨some batch :: rest, j⟩, rest, batch, rfl, rfl, by simp [advance, hdl]⟩

theorem advanceBatch_err_none_trace (tr : Trainer α) (di : Nat) (s : LoopState α)
    (b : α) (i : Nat) (herr : (advanceBatch tr di s b i).err = none) :
    (advanceBatch tr di s b i).trace = fullTrace tr.testing := by
  unfold advanceBatch at herr ⊢
  rcases hstep : evaluation_step tr s b i di with e | out0
  · rw [hstep] at herr
    simp at herr
  · simp [fullTrace]

theorem advance_err_none_trace (tr : Trainer α) (di : Nat) (s : LoopState α)
    (herr : (advance tr di s).err = none) :
    (advance tr di s).trace = fullTrace tr.testing := by
  obtain ⟨c, rest, batch, hdl, hitems, hadv⟩ := advance_err_none_shape tr di s herr
  rw [hadv] at herr ⊢
  exact advanceBatch_err_none_trace tr di _ batch c.next_idx herr

theorem advance_err_none_batch_idx (tr : Trainer α) (di : Nat) (s : LoopState α)
    (c : Cursor α) (hdl : s.dataloader = some c)
    (herr : (advance tr di s).err = none) :
    (advance tr di s).state.batch_idx = some c.next_idx := by
  obtain ⟨c', rest, batch, hdl', hitems, hadv⟩ := advance_err_none_shape tr di s herr
  rw [hdl] at hdl'
  obtain rfl := Option.some.inj hdl'
  rw [hadv, (advanceBatch_proj tr di _ batch c.next_idx).2]

theorem reachable_cursor_inv {s : LoopState α} (h : Reachable s) :
    ∀ c, s.dataloader = some c →
      c.next_idx = 0 ∨ ∃ p, s.batch_idx = some p ∧ c.next_idx = p + 1 := by
  induction h with
  | init =>
    intro c hc
    simp [initState] at hc
  | do_reset tr _ ih =>
    intro c hc
    exact ih c hc
  | do_run_start L mb di nd _ ih =>
    intro c hc
    simp only [on_run_start, Option.some.injEq] at hc
    left
    rw [← hc]
  | do_advance tr di hs ih =>
    rename_i s'
    intro c hc
    rcases hdl : s'.dataloader with _ | c0
    · rw [advance_no_cursor tr di s' hdl] at hc ⊢
      exact ih c hc
    · rcases c0 with ⟨items, j⟩
      rcases items with _ | ⟨b, rest⟩
      · rw [advance_exhausted tr di s' j hdl] at hc ⊢
        exact ih c hc
      · rcases b with _ | batch
        · rw [advance_null_batch tr di s' rest j hdl] at hc ⊢
          simp only [Option.some.injEq] at hc
          subst hc
          right
          exact ⟨j, rfl, rfl⟩
        · have hred : advance tr di s' =
              advanceBatch tr di
                { s' with batch_idx := some j, dataloader := some ⟨rest, j + 1⟩ }
                batch j := by simp [advance, hdl]
          rw [hred] at hc ⊢
          obtain ⟨hd, hb⟩ := advanceBatch_proj tr di
            { s' with batch_idx := some j, dataloader := some ⟨rest, j + 1⟩ } batch j
          rw [hd] at hc
          rw [hb]
          simp only [Option.some.injEq] at hc
          subst hc
          right
          exact ⟨j, rfl, rfl⟩

theorem done_ok_true_iff (s : LoopState α) :
    done s = .ok true ↔
      ∃ bi mb, s.batch_idx = some bi ∧ s.dl_max_batches = some mb ∧ mb ≤ bi := by
  rcases hb : s.batch_idx with _ | bi
  · simp [done, hb]
  · rcases hm : s.dl_max_batches with _ | mb
    · simp [done, hb, hm]
    · simp [done, hb, hm]

theorem outsFrom_length (tr : Trainer α) (nd d : Nat) (L : List α) (j : Nat)
    (h : ∀ b i, rawOut tr nd d b i ≠ none) :
    (outsFrom tr nd d L j).length = L.length := by
  induction L generalizing j with
  | nil => rfl
  | cons b bs ih =>
    have hb := h b j
    simp only [outsFrom, List.length_append, List.length_cons, ih]
    rcases ho : rawOut tr nd d b j with _ | o
    · exact absurd ho hb
    · cases o with
      | result p r =>
        simp only [poppedOut, ho]
        cases tr.testing <;> simp <;> omega
      | other v =>
        simp only [poppedOut, ho]
        simp
        omega

theorem predsFrom_validation (tr : Trainer α) (htest : tr.testing = false)
    (nd d : Nat) (L : List α) (j : Nat) : predsFrom tr nd d L j = [] := by
  induction L generalizing j with
  | nil => rfl
  | cons b bs ih =>
    simp only [predsFrom, ih, List.append_nil]
    rcases ho : rawOut tr nd d b j with _ | o
    · simp [predOf, ho]
    · cases o <;> simp [predOf, ho, htest]

theorem outsFrom_popped (tr : Trainer α) (htest : tr.testing = true)
    (nd d : Nat) (L : List α) (j : Nat) :
    ∀ o ∈ outsFrom tr nd d L j, ∀ p r, o = Output.result p r → p = none := by
  induction L generalizing j with
  | nil => intro o ho; simp [outsFrom] at ho
  | cons b bs ih =>
    intro o ho p r hres
    simp only [outsFrom, List.mem_append] at ho
    rcases ho with ho | ho
    · rcases hr : rawOut tr nd d b j with _ | o'
      · simp [poppedOut, hr] at ho
      · cases o' with
        | result p' r' =>
          simp [poppedOut, hr, htest] at ho
          rw [ho] at hres
          exact (Output.result.injEq _ _ _ _ ▸ hres).1.symm
        | other v =>
          simp [poppedOut, hr] at ho
          rw [ho] at hres
          simp at hres
    · exact ih (j + 1) o ho p r hres

/-- C1: code-bug evidence. The claim (and spec) require that with
`maxBatches = N` the loop's `done()` is true after exactly N successful
advances and that a further `advance()` performs no step call.  The code's
`done` compares the 0-based index of the last pulled batch against
`dl_max_batches`, so with `dl_max_batches = 0` over a one-batch source,
`done()` is still false after 0 advances (`batch_idx` unset) and the run's
very next `advance()` performs the full per-batch sequence, step call
included, finishing only after one batch was processed. -/
theorem done_off_by_one_bug :
    done sMax0 = Except.ok false ∧
    (advance trT 0 sMax0).trace = fullTrace true ∧
    (run trT initState [some 7] 0 0 1).1.iteration_count = 1 ∧
    (run trT initState [some 7] 0 0 1).1.outputs.length = 1 ∧
    (run trT initState [some 7] 0 0 1).2 = RunExit.finished :=
  ⟨rfl, rfl, rfl, rfl, rfl⟩

/-- C2: at every reachable state, `done()` returns true exactly when
`batch_idx` is set and is at least the (set) `dl_max_batches`; and every
successful `advance()` writes the pulled index to `batch_idx`, which is 0 for
the first batch of the current cursor and otherwise exactly one more than the
previous batch's index. -/
theorem done_iff_and_batch_index_increments (α : Type) :
    (∀ s : LoopState α, Reachable s →
      (done s = .ok true ↔
        ∃ bi mb, s.batch_idx = some bi ∧ s.dl_max_batches = some mb ∧ mb ≤ bi)) ∧
    (∀ (tr : Trainer α) (di : Nat) (s : LoopState α) (c : Cursor α),
      Reachable s → s.dataloader = some c → (advance tr di s).err = none →
      (advance tr di s).state.batch_idx = some c.next_idx ∧
      (c.next_idx = 0 ∨ ∃ p, s.batch_idx = some p ∧ c.next_idx = p + 1)) := by
  constructor
  · intro s _
    exact done_ok_true_iff s
  · intro tr di s c hs hdl herr
    exact ⟨advance_err_none_batch_idx tr di s c hdl herr, reachable_cursor_inv hs c hdl⟩

/-- C2 witness: a reachable state whose `done` is true by the iff, and a
concrete first advance whose recorded index is 0. -/
theorem done_iff_and_batch_index_increments_witness :
    done (advance trT 0 sMax0).state = Except.ok true ∧
    (advance trT 0 sReady).state.batch_idx = some 0 := by
  have h := done_iff_and_batch_index_increments Nat
  refine ⟨?_, ?_⟩
  · exact (h.1 (advance trT 0 sMax0).state
      (Reachable.do_advance trT 0
        (Reachable.do_run_start [some 7] 0 0 1 (Reachable.do_reset trT Reachable.init)))).mpr
      ⟨0, 0, rfl, rfl, Nat.le_refl 0⟩
  · exact (h.2 trT 0 sReady ⟨[some 7, some 8], 0⟩
      (Reachable.do_run_start [some 7, some 8] 5 0 1 (Reachable.do_reset trT Reachable.init))
      rfl rfl).1

/-- C3: for every successful `advance`, in either mode, the per-batch host
calls among the five named ones — mode-specific batch-start hook, step call,
step-end transform hook, mode-specific batch-end hook, prediction storage —
occur exactly once each and in exactly that order. -/
theorem hook_order_per_batch (α : Type) (tr : Trainer α) (di : Nat) (s : LoopState α)
    (herr : (advance tr di s).err = none) :
    (advance tr di s).trace.filter isMainHook =
      [Event.hookBatchStart tr.testing, Event.stepCall tr.testing,
       Event.stepEnd tr.testing, Event.hookBatchEnd tr.testing, Event.storePred] := by
  rw [advance_err_none_trace tr di s herr]
  rfl

/-- C3 witness: the hook order of a concrete successful advance. -/
theorem hook_order_per_batch_witness :
    (advance trT 0 sReady).trace.filter isMainHook =
      [Event.hookBatchStart true, Event.stepCall true, Event.stepEnd true,
       Event.hookBatchEnd true, Event.storePred] :=
  hook_order_per_batch Nat trT 0 sReady rfl

/-- C4: running from a fresh loop, the prediction collection ends as exactly
the ordered per-batch prediction values of the run's batches (the
`predictions` entry of each non-null `Result` output, in batch order; only in
test mode does `predOf` produce anything), every `Result` in the aggregated
outputs has had its `predictions` entry removed in test mode, and in
validation mode the collection stays empty regardless of output content. -/
theorem prediction_store_contents (α : Type) (tr : Trainer α) (L : List α)
    (mb di nd : Nat) :
    (run tr initState (L.map some) mb di nd).1.predictions =
      some { rank := tr.global_rank, world_size := tr.world_size,
             items := predsFrom tr nd di (L.take (mb + 1)) 0 } ∧
    (run tr initState (L.map some) mb di nd).1.outputs =
      outsFrom tr nd di (L.take (mb + 1)) 0 ∧
    (tr.testing = true →
      ∀ o ∈ (run tr initState (L.map some) mb di nd).1.outputs,
        ∀ p r, o = Output.result p r → p = none) ∧
    (tr.testing = false →
      (run tr initState (L.map some) mb di nd).1.predictions =
        some { rank := tr.global_rank, world_size := tr.world_size, items := [] }) := by
  have hchar := runSteps_char tr di L ((L.map some).length + 1) 0 mb nd
    { rank := tr.global_rank, world_size := tr.world_size, items := [] }
    (on_run_start (reset tr initState) (L.map some) mb di nd)
    (by simp [on_run_start]) (by simp [on_run_start]) (by simp [on_run_start])
    (by simp [on_run_start, reset]) (Or.inl (by simp [on_run_start, reset, initState]))
    (Nat.zero_le mb) (by simp)
  have hrun : run tr initState (L.map some) mb di nd = _ := hchar
  rw [hrun]
  simp only [on_run_start, reset, initState, Nat.sub_zero, List.nil_append,
    Nat.zero_add, Nat.add_zero]
  refine ⟨by simp, by simp, ?_, ?_⟩
  · intro ht o ho p r hres
    exact outsFrom_popped tr ht nd di (L.take (mb + 1)) 0 o (by simpa using ho) p r hres
  · intro hf
    simp [predsFrom_validation tr hf]

/-- C4 witness: a concrete test-mode run collecting both predictions in
order, and a concrete validation-mode run collecting none. -/
theorem prediction_store_contents_witness :
    (run trT initState [some 7, some 8] 5 0 1).1.predictions =
      some { rank := 0, world_size := 1, items := [5, 5] } ∧
    (run trV initState [some 7] 5 0 1).1.predictions =
      some { rank := 0, world_size := 1, items := [] } := by
  have hT := prediction_store_contents Nat trT [7, 8] 5 0 1
  have hV := prediction_store_contents Nat trV [7] 5 0 1
  exact ⟨hT.1.trans (by rfl), hV.2.2.2 rfl⟩

/-- C5: the step-call kwargs are an insertion-ordered mapping containing
exactly the key `batch` then `batch_idx`, with `dataloader_idx` appended last
precisely when `num_dataloaders > 1`; the mode flag never affects which keys
are present (the right-hand side does not mention it). -/
theorem step_kwargs_keys (α : Type) (t : Bool) (nd : Nat) (b : α) (i d : Nat) :
    _build_kwargs t (some nd) b i d =
      .ok ([(KwKey.batch, KwVal.b b), (KwKey.batch_idx, KwVal.n i)] ++
        (if 1 < nd then [(KwKey.dataloader_idx, KwVal.n d)] else [])) :=
  build_kwargs_some t nd b i d

/-- C5 witness: three keys with several loaders in test mode, two keys with a
single loader in validation mode. -/
theorem step_kwargs_keys_witness :
    _build_kwargs true (some 3) (7 : Nat) 2 1 =
      Except.ok [(KwKey.batch, KwVal.b 7), (KwKey.batch_idx, KwVal.n 2),
                 (KwKey.dataloader_idx, KwVal.n 1)] ∧
    _build_kwargs false (some 1) (7 : Nat) 2 1 =
      Except.ok [(KwKey.batch, KwVal.b 7), (KwKey.batch_idx, KwVal.n 2)] :=
  ⟨(step_kwargs_keys Nat true 3 7 2 1).trans (by rfl),
   (step_kwargs_keys Nat false 1 7 2 1).trans (by rfl)⟩

/-- C6: a source that exhausts after K batches with K < maxBatches ends the
run normally (exhaustion converted to the normal stop, no error surfaced),
after exactly K iterations, returning the K per-batch aggregated outputs
(exactly K of them when the adapter returns non-null outputs). -/
theorem source_exhaustion_normal (α : Type) (tr : Trainer α) (L : List α)
    (mb di nd : Nat) (hK : L.length < mb)
    (hstep : ∀ b i, rawOut tr nd di b i ≠ none) :
    (run tr initState (L.map some) mb di nd).2 = RunExit.finished ∧
    on_run_end (run tr initState (L.map some) mb di nd).1 = outsFrom tr nd di L 0 ∧
    (on_run_end (run tr initState (L.map some) mb di nd).1).length = L.length ∧
    (run tr initState (L.map some) mb di nd).1.iteration_count = L.length := by
  have hchar := runSteps_char tr di L ((L.map some).length + 1) 0 mb nd
    { rank := tr.global_rank, world_size := tr.world_size, items := [] }
    (on_run_start (reset tr initState) (L.map some) mb di nd)
    (by simp [on_run_start]) (by simp [on_run_start]) (by simp [on_run_start])
    (by simp [on_run_start, reset]) (Or.inl (by simp [on_run_start, reset, initState]))
    (Nat.zero_le mb) (by simp)
  have hrun : run tr initState (L.map some) mb di nd = _ := hchar
  rw [hrun]
  have hlen : L.length ≤ mb + 1 := by omega
  simp only [on_run_end, on_run_start, reset, initState, Nat.sub_zero,
    List.nil_append, Nat.zero_add, Nat.add_zero, List.take_of_length_le hlen,
    min_eq_left hlen]
  exact ⟨trivial, trivial, outsFrom_length tr nd di L 0 hstep, trivial⟩

/-- C6 witness: a two-batch source under maxBatches 5 finishes normally with
two aggregated outputs. -/
theorem source_exhaustion_normal_witness :
    (run trT initState [some 7, some 8] 5 0 1).2 = RunExit.finished ∧
    (run trT initState [some 7, some 8] 5 0 1).1.outputs.length = 2 := by
  have h := source_exhaustion_normal Nat trT [7, 8] 5 0 1 (by decide)
    (fun b i => by simp [rawOut, evaluation_step_end, trT])
  exact ⟨h.1, h.2.2.1⟩

/-- C7: code-bug evidence. The claim (and spec) require that a `reset` after
a completed run restores a state indistinguishable from the post-first-`reset`
state, `batchIndex` unset included.  The code's `reset` zeroes
`iteration_count`, empties outputs and predictions, and unsets the run
arguments, but leaves the stale `batch_idx` (and the exhausted cursor) from
the previous run, so the two states differ: here the first reset has
`batch_idx = none` while the post-run reset keeps `batch_idx = some 0`. -/
theorem reset_state_leak_bug :
    (reset trT (run trT initState [some 7] 3 0 1).1).batch_idx = some 0 ∧
    (reset trT initState).batch_idx = none ∧
    (reset trT (run trT initState [some 7] 3 0 1).1).iteration_count = 0 ∧
    (reset trT (run trT initState [some 7] 3 0 1).1).outputs = [] ∧
    (reset trT (run trT initState [some 7] 3 0 1).1).predictions =
      some { rank := 0, world_size := 1, items := [] } ∧
    reset trT (run trT initState [some 7] 3 0 1).1 ≠ reset trT initState := by
  decide

/-- C8 counterexample: `advance()` on a fresh loop (before `reset`, so
`maxBatches` and the cursor are unset) fails with `TypeError` (from iterating
the unset cursor), not with a configuration error, refuting the claim at this
concrete input. -/
theorem advance_unset_type_error_not_config :
    (advance trT 0 initState).err = some PyErr.typeError ∧
    (advance trT 0 initState).err ≠ some PyErr.configurationError := by
  decide

/-- C8 amended: calling `advance()` before `reset()`/`on_run_start` (cursor
and `maxBatches` unset) always fails rather than succeeding — it raises a
`TypeError` from the unset cursor, with no side effects — but the failure is
a type error, not a configuration error. -/
theorem advance_before_setup_raises_type_error (α : Type) (tr : Trainer α) (di : Nat) :
    advance tr di (initState : LoopState α) =
      { state := initState, trace := [], err := some PyErr.typeError } :=
  advance_no_cursor tr di initState rfl

/-- C8 amended witness: the fresh-loop advance failure at a concrete
trainer. -/
theorem advance_before_setup_raises_type_error_witness :
    advance trV 1 (initState : LoopState Nat) =
      { state := initState, trace := [], err := some PyErr.typeError } :=
  advance_before_setup_raises_type_error Nat trV 1

/-- C9: when the cursor yields a null batch, `advance` first records that
batch's index in `batch_idx` (consuming the item) and only then raises the
termination signal; no other per-batch effect occurs — the trace is empty (no
hooks, no step, no storage) and every other field, outputs and predictions
included, is untouched. -/
theorem null_batch_sets_index_no_effects (α : Type) (tr : Trainer α) (di : Nat)
    (s : LoopState α) (rest : List (Option α)) (j : Nat)
    (hdl : s.dataloader = some ⟨none :: rest, j⟩) :
    advance tr di s =
      { state := { s with batch_idx := some j, dataloader := some ⟨rest, j + 1⟩ }
        trace := []
        err := some PyErr.stopIteration } :=
  advance_null_batch tr di s rest j hdl

/-- C9 witness: a concrete null batch at index 0. -/
theorem null_batch_sets_index_no_effects_witness :
    advance trT 0 (on_run_start (reset trT initState) [none, some 3] 4 0 1) =
      { state := { on_run_start (reset trT initState) [none, some 3] 4 0 1 with
                   batch_idx := some 0, dataloader := some ⟨[some 3], 1⟩ }
        trace := []
        err := some PyErr.stopIteration } :=
  null_batch_sets_index_no_effects Nat trT 0 _ [some 3] 0 rfl

/-- C10: `reset` after `batch_idx` was set leaves `batch_idx` set while
unsetting `dl_max_batches`, so `done` raises `TypeError` (comparing the stale
integer against the unset maximum) instead of returning a boolean, until
`on_run_start` supplies a new `dl_max_batches`, after which `done` returns a
boolean again. -/
theorem stale_batch_idx_breaks_done (α : Type) (tr : Trainer α) (s : LoopState α)
    (k : Nat) (h : s.batch_idx = some k) :
    (reset tr s).batch_idx = some k ∧
    (reset tr s).dl_max_batches = none ∧
    done (reset tr s) = Except.error PyErr.typeError ∧
    ∀ L mb di nd, ∃ b2, done (on_run_start (reset tr s) L mb di nd) = Except.ok b2 := by
  refine ⟨h, rfl, ?_, ?_⟩
  · simp [done, reset, h]
  · intro L mb di nd
    exact ⟨decide (mb ≤ k), by simp [done, on_run_start, reset, h]⟩

/-- C10 witness: `done` raises on the concrete post-run, post-reset state. -/
theorem stale_batch_idx_breaks_done_witness :
    done (reset trT (run trT initState [some 7] 3 0 1).1) =
      Except.error PyErr.typeError :=
  (stale_batch_idx_breaks_done Nat trT (run trT initState [some 7] 3 0 1).1 0
    (by decide)).2.2.1

end EvalLoop
